import Mathlib

/-!
# PWA camera: the service worker (`src/sw.js`) and the camera page (`src/app.js`)

A shallow embedding of the two scripts.

* Promises are settled values: `Except String α` (`.ok` = fulfilled,
  `.error` = rejected with a reason).
* The browser's `CacheStorage` is an ordered list of named caches, each an
  ordered list of (request URL, response) entries.
* The network is a function from a URL to `Option Response`; `none` is a
  rejected `fetch`.
* Every handler returns, besides the new cache storage, the list of platform
  effects it performed, in order.
* The page is a state record: the module variables of `app.js`, the parts of the
  markup the script writes, the tracks that are live, and the log of the effects
  on the devices and the user.
* Console output and the scroll position of the photo strip are not modelled.
-/

namespace SW

/-! ## Platform model -/

deriving instance DecidableEq for Except

/-- JavaScript `String.prototype.startsWith`, on the characters of the two strings. -/
def startsWith (s p : String) : Bool := p.toList.isPrefixOf s.toList

/-- Origin of an absolute URL: the scheme, `://`, and the authority, which ends at the
first `/`, `?` or `#`. A string without `://` after its scheme has the origin `null`. -/
def urlOrigin (url : String) : String :=
  let cs := url.toList
  let scheme := cs.takeWhile (fun c => c != ':')
  let rest := cs.dropWhile (fun c => c != ':')
  if "://".toList.isPrefixOf rest then
    let authority := (rest.drop 3).takeWhile (fun c => c != '/' && c != '?' && c != '#')
    String.mk (scheme ++ "://".toList ++ authority)
  else "null"

/-- Resolution of the relative references of the manifest (`./`, `./index.html`, ...)
against the directory URL of the worker script, which ends in `/`. -/
def resolveUrl (base rel : String) : String :=
  if startsWith rel "./" then base ++ String.mk (rel.toList.drop 2) else rel

/-- A `Response`: status code, `type` (`basic`, `cors`, `error`, ...) and body. -/
structure Response where
  status : Nat
  type : String
  body : String
deriving DecidableEq, Repr

/-- The `ok` attribute of a response: status in 200..299. -/
def Response.ok (r : Response) : Bool := decide (200 ≤ r.status) && decide (r.status ≤ 299)

/-- A `Request`, as far as the worker reads it. -/
structure Request where
  method : String
  url : String
deriving DecidableEq, Repr

/-- The network: `none` is a `fetch` whose promise rejects. -/
abbrev Net := String → Option Response

/-- One cache: entries keyed by request URL, in insertion order. -/
abbrev Cache := List (String × Response)

/-- The origin's cache storage: named caches in creation order. -/
abbrev CacheStorage := List (String × Cache)

/-- Platform effects, in the order the handlers perform them. -/
inductive Effect where
  | netFetch (url : String)
  | cachesMatch (url : String)
  | cachesOpen (name : String)
  | cachesKeys
  | cachesDelete (name : String)
  | cachePut (name url : String)
  | skipWaiting
  | clientsClaim
deriving DecidableEq, Repr

/-- Is the effect a network fetch? -/
def Effect.isNetFetch : Effect → Bool
  | .netFetch _ => true
  | _ => false

/-- Is the effect a read of the cache storage? -/
def Effect.isCacheRead : Effect → Bool
  | .cachesMatch _ => true
  | _ => false

/-- Is the effect a write to the cache storage (creation, entry write, deletion)? -/
def Effect.isCacheWrite : Effect → Bool
  | .cachesOpen _ => true
  | .cachePut _ _ => true
  | .cachesDelete _ => true
  | _ => false

/-- Number of network fetches among the effects. -/
def netFetchCount (es : List Effect) : Nat := es.countP Effect.isNetFetch

/-- The URL with its fragment (the first `#` and what follows) left out. -/
def excludeFragment (url : String) : String :=
  String.mk (url.toList.takeWhile (fun c => c != '#'))

/-- Request matching of the Cache interface for GET requests and no match options: the
URL of the stored request and the URL of the requested one are equal once their fragments
are left out. Responses carry no headers here, so `Vary` plays no part. -/
def urlMatches (cached requested : String) : Bool :=
  excludeFragment cached == excludeFragment requested

/-- `cache.match(request)`: the first entry whose request matches. -/
def cacheMatch (c : Cache) (url : String) : Option Response :=
  (c.find? (fun e => urlMatches e.1 url)).map (fun e => e.2)

/-- `caches.match(request)`: the caches are searched in creation order and the first
hit of any of them is the answer. -/
def cachesMatch (cs : CacheStorage) (url : String) : Option Response :=
  cs.findSome? (fun nc => cacheMatch nc.2 url)

/-- Lookup in the one cache of the given name. -/
def generationMatch (cs : CacheStorage) (name url : String) : Option Response :=
  (cs.find? (fun nc => nc.1 == name)).bind (fun nc => cacheMatch nc.2 url)

/-- `caches.open(name)`: the cache is created, empty, when it does not exist. -/
def cachesOpen (cs : CacheStorage) (name : String) : CacheStorage :=
  if cs.any (fun nc => nc.1 == name) then cs else cs ++ [(name, [])]

/-- `cache.put(request, response)` on the cache of the given name: the entries whose
request matches are removed and the new entry is added. -/
def cachePut (cs : CacheStorage) (name url : String) (r : Response) : CacheStorage :=
  cs.map (fun nc =>
    if nc.1 == name then (nc.1, nc.2.filter (fun e => !urlMatches e.1 url) ++ [(url, r)])
    else nc)

/-- `caches.keys()`. -/
def cachesKeys (cs : CacheStorage) : List String := cs.map (fun nc => nc.1)

/-- `caches.delete(name)`. -/
def cachesDelete (cs : CacheStorage) (name : String) : CacheStorage :=
  cs.filter (fun nc => nc.1 != name)

/-- The fetches of `cache.addAll(urls)`: every URL is fetched, and one rejected fetch
or one response that is not `ok` rejects the whole batch. -/
def fetchAll (net : Net) : List String → Except String (List (String × Response))
  | [] => .ok []
  | u :: us =>
    match net u with
    | none => .error "TypeError: Failed to fetch"
    | some r =>
      if r.ok then
        match fetchAll net us with
        | .ok rs => .ok ((u, r) :: rs)
        | .error e => .error e
      else .error "TypeError: Request failed"

/-- `cache.addAll(urls)` on the cache of the given name: all or nothing. -/
def cacheAddAll (net : Net) (cs : CacheStorage) (name : String) (urls : List String) :
    Except String CacheStorage :=
  match fetchAll net urls with
  | .ok rs => .ok (rs.foldl (fun acc e => cachePut acc name e.1 e.2) cs)
  | .error e => .error e

/-- `promise.catch(handler)`: a rejection is replaced by what the handler settles to. -/
def promiseCatch {α : Type} (p : Except String α) (handler : String → Except String α) :
    Except String α :=
  match p with
  | .ok v => .ok v
  | .error e => handler e

/-! ## `src/sw.js` -/

/-- The version tag of the current cache generation (`sw.js` line 8). -/
def CACHE_NAME : String := "pwa-camera-v1"

/-- The manifest pre-cached at install (`sw.js` lines 12-17). -/
def CACHE_RESOURCES : List String := ["./", "./index.html", "./app.js", "./manifest.json"]

/-- What a lifecycle or message handler leaves behind: the promise handed to
`event.waitUntil` (if any), the cache storage, and the effects. -/
structure HandlerResult where
  waitUntil : Option (Except String Unit)
  caches : CacheStorage
  effects : List Effect
deriving DecidableEq, Repr

/-- The `install` listener (`sw.js` lines 27-47):
`caches.open(CACHE_NAME).then(cache => cache.addAll(CACHE_RESOURCES))
   .then(() => self.skipWaiting()).catch(error => { console.error(..) })`.
The `catch` callback returns nothing, so the promise it yields is fulfilled. -/
def installHandler (base : String) (net : Net) (cs : CacheStorage) : HandlerResult :=
  let urls := CACHE_RESOURCES.map (resolveUrl base)
  let cs1 := cachesOpen cs CACHE_NAME
  let fetches := urls.map Effect.netFetch
  match cacheAddAll net cs1 CACHE_NAME urls with
  | .ok cs2 =>
    { waitUntil := some (promiseCatch (.ok ()) (fun _ => .ok ()))
      caches := cs2
      effects := [Effect.cachesOpen CACHE_NAME] ++ fetches
        ++ urls.map (Effect.cachePut CACHE_NAME) ++ [Effect.skipWaiting] }
  | .error e =>
    { waitUntil := some (promiseCatch (.error e) (fun _ => .ok ()))
      caches := cs1
      effects := [Effect.cachesOpen CACHE_NAME] ++ fetches }

/-- The `activate` listener (`sw.js` lines 57-79): every cache name that is not
`CACHE_NAME` is deleted, then `self.clients.claim()`. -/
def activateHandler (cs : CacheStorage) : HandlerResult :=
  let cacheNames := cachesKeys cs
  let stale := cacheNames.filter (fun cacheName => cacheName != CACHE_NAME)
  { waitUntil := some (.ok ())
    caches := cacheNames.foldl
      (fun acc cacheName => if cacheName != CACHE_NAME then cachesDelete acc cacheName else acc) cs
    effects := [Effect.cachesKeys] ++ stale.map Effect.cachesDelete ++ [Effect.clientsClaim] }

/-- What the `fetch` listener leaves behind: the promise handed to
`event.respondWith` (`none`: `respondWith` was not called and the request goes
to the network untouched), the cache storage, and the effects. -/
structure FetchResult where
  respondWith : Option (Except String Response)
  caches : CacheStorage
  effects : List Effect
deriving DecidableEq, Repr

/-- The `fetch` listener (`sw.js` lines 92-149). A fulfilled `fetch` carries a response
object, so the test `!networkResponse` of line 123 never holds. The cache write of lines
131-135 is not awaited by the response; it is modelled as completed. -/
def fetchHandler (origin : String) (net : Net) (cs : CacheStorage) (request : Request) :
    FetchResult :=
  if request.method != "GET" then
    { respondWith := none, caches := cs, effects := [] }
  else if !(startsWith request.url origin) then
    { respondWith := none, caches := cs, effects := [] }
  else
    match cachesMatch cs request.url with
    | some cachedResponse =>
      { respondWith := some (.ok cachedResponse), caches := cs
        effects := [Effect.cachesMatch request.url] }
    | none =>
      match net request.url with
      | some networkResponse =>
        if networkResponse.status != 200 || networkResponse.type == "error" then
          { respondWith := some (promiseCatch (.ok networkResponse) (fun error => .error error))
            caches := cs
            effects := [Effect.cachesMatch request.url, Effect.netFetch request.url] }
        else
          { respondWith := some (promiseCatch (.ok networkResponse) (fun error => .error error))
            caches := cachePut (cachesOpen cs CACHE_NAME) CACHE_NAME request.url networkResponse
            effects := [Effect.cachesMatch request.url, Effect.netFetch request.url,
              Effect.cachesOpen CACHE_NAME, Effect.cachePut CACHE_NAME request.url] }
      | none =>
        { respondWith :=
            some (promiseCatch (.error "TypeError: Failed to fetch") (fun error => .error error))
          caches := cs
          effects := [Effect.cachesMatch request.url, Effect.netFetch request.url] }

/-- The `data` of a message event, as far as the worker reads it. -/
structure MessageData where
  action : String
deriving DecidableEq, Repr

/-- The `message` listener (`sw.js` lines 159-177). -/
def messageHandler (cs : CacheStorage) (data : MessageData) : HandlerResult :=
  let skip := if data.action == "skipWaiting" then [Effect.skipWaiting] else []
  if data.action == "clearCache" then
    let cacheNames := cachesKeys cs
    { waitUntil := some (.ok ())
      caches := cacheNames.foldl (fun acc cacheName => cachesDelete acc cacheName) cs
      effects := skip ++ [Effect.cachesKeys] ++ cacheNames.map Effect.cachesDelete }
  else
    { waitUntil := none, caches := cs, effects := skip }

/-- An event the active worker handles after a fetch: another fetch, with the network of
that moment, a message, or an activation. -/
inductive WorkerEvent where
  | fetch (net : Net) (request : Request)
  | message (data : MessageData)
  | activate

/-- Is the event a message that clears the cache storage (`sw.js` line 168)? -/
def WorkerEvent.clears : WorkerEvent → Bool
  | .message data => data.action == "clearCache"
  | _ => false

/-- The cache storage after the worker has handled one event. -/
def handle (origin : String) (cs : CacheStorage) : WorkerEvent → CacheStorage
  | .fetch net request => (fetchHandler origin net cs request).caches
  | .message data => (messageHandler cs data).caches
  | .activate => (activateHandler cs).caches

/-- The cache storage after the worker has handled the events one after the other. -/
def handleAll (origin : String) (cs : CacheStorage) (events : List WorkerEvent) :
    CacheStorage :=
  events.foldl (handle origin) cs

end SW

namespace App

/-! ## Platform model -/

/-- A `MediaStream`, as far as the page reads it: the ids of its tracks. -/
structure MediaStream where
  tracks : List Nat
deriving DecidableEq, Repr

/-- The exception a rejected `getUserMedia` carries. -/
structure DOMException where
  name : String
  message : String
deriving DecidableEq, Repr

/-- One entry of `enumerateDevices()`. -/
structure MediaDeviceInfo where
  kind : String
  label : String
deriving DecidableEq, Repr

/-- What `capturePhoto` reads from the preview and the clock: the frame size of the
video, the data URL the canvas encodes the frame to, `Date.now()` and
`new Date().toLocaleString()`. -/
structure Frame where
  videoWidth : Nat
  videoHeight : Nat
  dataUrl : String
  now : Nat
  localeString : String
deriving DecidableEq, Repr

/-- Effects on the devices and the user, in the order the page performs them. -/
inductive Event where
  | trackStop (track : Nat)
  | setSrcObject (s : Option MediaStream)
  | getUserMedia (facingMode : String)
  | enumerateDevices
  | drawImage (width height : Nat)
  | alert (message : String)
deriving DecidableEq, Repr

/-- JavaScript `String.prototype.toLowerCase`, on ASCII letters. -/
def toLowerCase (s : String) : String := String.mk (s.toList.map Char.toLower)

/-- JavaScript `String.prototype.includes`. -/
def includes (s pat : String) : Bool := s.toList.tails.any (fun t => pat.toList.isPrefixOf t)

/-! ## `src/app.js` -/

/-- An entry of `capturedPhotos` (`app.js` lines 196-200). -/
structure Photo where
  id : Nat
  dataUrl : String
  timestamp : String
deriving DecidableEq, Repr

/-- One `div.photo-item` built by `displayPhotos`: the image source, its `alt` text and
the id its delete button passes to `deletePhoto`. -/
structure PhotoItem where
  src : String
  alt : String
  deleteId : Nat
deriving DecidableEq, Repr

/-- Content of the `photosScroll` container. -/
inductive Gallery where
  | markup (html : String)
  | items (l : List PhotoItem)
deriving DecidableEq, Repr

/-- The part of the page's markup the script toggles: the `active` class of the video
container, the `visible` class of the two buttons, the label of the open button, the size
of the canvas and the content of the photo strip. -/
structure Ui where
  videoContainerActive : Bool
  captureBtnVisible : Bool
  switchCameraBtnVisible : Bool
  openCameraBtnText : String
  canvasWidth : Nat
  canvasHeight : Nat
  photosScroll : Gallery
deriving DecidableEq, Repr

/-- The module variables of `app.js` (lines 34-37), the `srcObject` of the video element,
the markup, and the devices: the tracks that are live, the id of the next track the
platform hands out, and the effects so far. -/
structure State where
  stream : Option MediaStream
  currentFacingMode : String
  hasFrontCamera : Bool
  capturedPhotos : List Photo
  videoSrcObject : Option MediaStream
  ui : Ui
  liveTracks : List Nat
  nextTrackId : Nat
  log : List Event
deriving DecidableEq, Repr

/-- The state when the script has loaded, over the markup of the page. -/
def init (ui : Ui) : State :=
  { stream := none
    currentFacingMode := "environment"
    hasFrontCamera := false
    capturedPhotos := []
    videoSrcObject := none
    ui := ui
    liveTracks := []
    nextTrackId := 0
    log := [] }

/-- Function `checkForFrontCamera` (`app.js` lines 48-73); `devices` is what
`enumerateDevices()` settles to. -/
def checkForFrontCamera (s : State) (devices : Except String (List MediaDeviceInfo)) :
    State × Bool :=
  let s1 := { s with log := s.log ++ [Event.enumerateDevices] }
  match devices with
  | .ok ds =>
    let videoDevices := ds.filter (fun device => device.kind == "videoinput")
    let front := decide (videoDevices.length > 1) ||
      videoDevices.any (fun device =>
        includes (toLowerCase device.label) "front" ||
        includes (toLowerCase device.label) "user")
    ({ s1 with hasFrontCamera := front }, front)
  | .error _ => (s1, false)

/-- Function `closeCamera` (`app.js` lines 135-156). The label of line 152 holds the
character U+FFFD in the source. -/
def closeCamera (s : State) : State :=
  match s.stream with
  | some st =>
    { s with
      liveTracks := st.tracks.foldl (fun live track => live.filter (fun t => t != track))
        s.liveTracks
      videoSrcObject := none
      stream := none
      ui := { s.ui with
        videoContainerActive := false
        captureBtnVisible := false
        switchCameraBtnVisible := false
        openCameraBtnText := "Abrir C\uFFFDmara" }
      log := s.log ++ st.tracks.map Event.trackStop ++ [Event.setSrcObject none] }
  | none => s

/-- The `alert` text of the `catch` block of `openCamera` (`app.js` lines 120-128). -/
def openErrorMessage (error : DOMException) : String :=
  if error.name == "NotAllowedError" then
    "Permiso denegado. Por favor, permite el acceso a la camara en la configuracian de tu navegador."
  else if error.name == "NotFoundError" then
    "No se encontró ninguna camara en este dispositivo."
  else if error.name == "NotReadableError" then
    "La camara esta siendo utilizada por otra aplicacion."
  else "Error al acceder a la camara: " ++ error.message

/-- Function `openCamera` (`app.js` lines 82-130). `gum` is what `getUserMedia` settles
to: an exception, or a new stream of that many tracks, which get the next free ids. -/
def openCamera (s : State) (gum : Except DOMException Nat)
    (devices : Except String (List MediaDeviceInfo)) : State :=
  let s1 := if s.stream.isSome then closeCamera s else s
  let s2 := { s1 with log := s1.log ++ [Event.getUserMedia s1.currentFacingMode] }
  match gum with
  | .ok n =>
    let st : MediaStream := { tracks := List.range' s2.nextTrackId n }
    let s3 : State :=
      { s2 with
        stream := some st
        liveTracks := s2.liveTracks ++ st.tracks
        nextTrackId := s2.nextTrackId + n
        videoSrcObject := some st
        ui := { s2.ui with
          videoContainerActive := true
          captureBtnVisible := true
          openCameraBtnText := "Cerrar Cámara" }
        log := s2.log ++ [Event.setSrcObject (some st)] }
    let r := checkForFrontCamera s3 devices
    if r.2 then { r.1 with ui := { r.1.ui with switchCameraBtnVisible := true } } else r.1
  | .error error => { s2 with log := s2.log ++ [Event.alert (openErrorMessage error)] }

/-- Function `switchCamera` (`app.js` lines 161-167). -/
def switchCamera (s : State) (gum : Except DOMException Nat)
    (devices : Except String (List MediaDeviceInfo)) : State :=
  openCamera
    { s with currentFacingMode :=
        if s.currentFacingMode == "environment" then "user" else "environment" }
    gum devices

/-- The markup `displayPhotos` shows for an empty gallery (`app.js` line 216); the source
holds the character U+FFFD in it. -/
def noPhotosMarkup : String :=
  "<div class=\"no-photos\">No hay fotos a\uFFFDn. Toma una foto para comenzar.</div>"

/-- The `div.photo-item` elements `displayPhotos` builds (`app.js` lines 221-237). -/
def photoItems (photos : List Photo) : List PhotoItem :=
  photos.enum.map (fun ip =>
    { src := ip.2.dataUrl, alt := "Foto " ++ toString (ip.1 + 1), deleteId := ip.2.id })

/-- Function `displayPhotos` (`app.js` lines 210-240). -/
def displayPhotos (s : State) : State :=
  if s.capturedPhotos.length == 0 then
    { s with ui := { s.ui with photosScroll := Gallery.markup noPhotosMarkup } }
  else
    { s with ui := { s.ui with photosScroll := Gallery.items (photoItems s.capturedPhotos) } }

/-- The `alert` text of `capturePhoto` (`app.js` line 178); the source holds the character
U+FFFD twice in it. -/
def cameraClosedMessage : String := "La c\uFFFDmara no est\uFFFD abierta"

/-- Function `capturePhoto` (`app.js` lines 176-205). -/
def capturePhoto (s : State) (f : Frame) : State :=
  match s.stream with
  | none => { s with log := s.log ++ [Event.alert cameraClosedMessage] }
  | some _ =>
    displayPhotos
      { s with
        ui := { s.ui with
          canvasWidth := f.videoWidth
          canvasHeight := f.videoHeight }
        capturedPhotos := s.capturedPhotos ++
          [{ id := f.now, dataUrl := f.dataUrl, timestamp := f.localeString }]
        log := s.log ++ [Event.drawImage f.videoWidth f.videoHeight] }

/-- Function `deletePhoto` (`app.js` lines 245-249). -/
def deletePhoto (s : State) (photoId : Nat) : State :=
  displayPhotos { s with capturedPhotos := s.capturedPhotos.filter (fun photo => photo.id != photoId) }

/-- The `click` listener of the open button (`app.js` lines 256-262). -/
def onOpenCameraBtnClick (s : State) (gum : Except DOMException Nat)
    (devices : Except String (List MediaDeviceInfo)) : State :=
  if s.stream.isSome then closeCamera s else openCamera s gum devices

/-- The `beforeunload` listener (`app.js` lines 268-272). -/
def onBeforeUnload (s : State) : State :=
  if s.stream.isSome then closeCamera s else s

/-- One serialized call on the page, with what the platform answers during it. -/
inductive Call where
  | openCamera (gum : Except DOMException Nat) (devices : Except String (List MediaDeviceInfo))
  | closeCamera
  | switchCamera (gum : Except DOMException Nat) (devices : Except String (List MediaDeviceInfo))
  | capturePhoto (f : Frame)
  | deletePhoto (photoId : Nat)
  | clickOpenCameraBtn (gum : Except DOMException Nat)
      (devices : Except String (List MediaDeviceInfo))

/-- The state after one call. -/
def step (s : State) : Call → State
  | .openCamera gum devices => openCamera s gum devices
  | .closeCamera => closeCamera s
  | .switchCamera gum devices => switchCamera s gum devices
  | .capturePhoto f => capturePhoto s f
  | .deletePhoto photoId => deletePhoto s photoId
  | .clickOpenCameraBtn gum devices => onOpenCameraBtnClick s gum devices

/-- The state after a sequence of calls, each run to completion before the next. -/
def run (s : State) (calls : List Call) : State := calls.foldl step s

/-- The state after the given frames were captured one after the other. -/
def captureAll (s : State) (frames : List Frame) : State := frames.foldl capturePhoto s

end App

/-! ## Concrete inputs -/

namespace SW

/-- Directory URL of the worker script in the examples. -/
def exampleBase : String := "https://app.example/pwa/"

/-- Origin of the worker in the examples. -/
def exampleOrigin : String := "https://app.example"

/-- A network on which every resource is served with status 200, except the manifest
file of the application, whose fetch is rejected. -/
def manifestDownNet : Net := fun url =>
  if url == "https://app.example/pwa/manifest.json" then none
  else some { status := 200, type := "basic", body := url }

/-- A network that serves every URL with status 200 and the given body. -/
def constNet (body : String) : Net := fun _ => some { status := 200, type := "cors", body := body }

/-- A GET request to a host of another origin whose URL begins with the text of the
worker's origin. -/
def foreignRequest : Request := { method := "GET", url := "https://app.example.evil.net/x" }

/-- A same-origin GET request. -/
def shellRequest : Request := { method := "GET", url := "https://app.example/pwa/app.js" }

/-- A stored response. -/
def staleResponse : Response := { status := 200, type := "basic", body := "old script" }

/-- A cache storage in which a generation other than the current one holds the entry for
`shellRequest` and the current generation is empty. -/
def twoGenerations : CacheStorage :=
  [("pwa-camera-v0", [("https://app.example/pwa/app.js", staleResponse)]), ("pwa-camera-v1", [])]

/-- The request of `shellRequest` with a fragment on its URL. -/
def fragmentRequest : Request := { method := "GET", url := "https://app.example/pwa/app.js#top" }

/-- Events after a first fetch: a fetch of another URL, a message that skips waiting, and
an activation. -/
def laterEvents : List WorkerEvent :=
  [WorkerEvent.fetch (constNet "c") { method := "GET", url := "https://app.example/pwa/index.html" },
   WorkerEvent.message { action := "skipWaiting" },
   WorkerEvent.activate]

/-- A cache storage whose current generation holds the entry for `shellRequest`. -/
def oneGeneration : CacheStorage :=
  [("pwa-camera-v1", [("https://app.example/pwa/app.js", staleResponse)])]

end SW

namespace App

/-- Markup of a page on which nothing is shown yet. -/
def exampleUi : Ui :=
  { videoContainerActive := false
    captureBtnVisible := false
    switchCameraBtnVisible := false
    openCameraBtnText := "Abrir Cámara"
    canvasWidth := 0
    canvasHeight := 0
    photosScroll := Gallery.markup "" }

/-- The page after one successful `openCamera` on a device with one camera. -/
def exampleOpen : State :=
  openCamera (init exampleUi) (.ok 1) (.ok [{ kind := "videoinput", label := "camera" }])

/-- A frame captured at the clock reading 1700000000000. -/
def frameA : Frame :=
  { videoWidth := 1280, videoHeight := 720, dataUrl := "data:image/jpeg;base64,AAAA"
    now := 1700000000000, localeString := "14/11/2023, 22:13:20" }

/-- Another frame, captured at the same clock reading as `frameA`. -/
def frameB : Frame :=
  { videoWidth := 1280, videoHeight := 720, dataUrl := "data:image/jpeg;base64,BBBB"
    now := 1700000000000, localeString := "14/11/2023, 22:13:20" }

/-- A gallery of three photos with the ids 10, 20 and 30, on a page whose camera is
closed. -/
def exampleGallery : State :=
  { init exampleUi with
    capturedPhotos :=
      [{ id := 10, dataUrl := "data:a", timestamp := "t1" },
       { id := 20, dataUrl := "data:b", timestamp := "t2" },
       { id := 30, dataUrl := "data:c", timestamp := "t3" }] }

/-- The photo `capturePhoto` stores for a frame (`app.js` lines 196-200). -/
def photoOf (f : Frame) : Photo :=
  { id := f.now, dataUrl := f.dataUrl, timestamp := f.localeString }

/-- The invariant of the camera session: the preview shows the active stream, the live
tracks are the tracks of the active stream, the facing mode is one of the two values,
every live track was handed out by the platform, and every track handed out so far is
live or was stopped. -/
structure Inv (s : State) : Prop where
  sink : s.videoSrcObject = s.stream
  live : s.liveTracks = (s.stream.map MediaStream.tracks).getD []
  mode : s.currentFacingMode = "environment" ∨ s.currentFacingMode = "user"
  fresh : ∀ t ∈ s.liveTracks, t < s.nextTrackId
  stopped : ∀ t, t < s.nextTrackId → t ∈ s.liveTracks ∨ Event.trackStop t ∈ s.log

end App

/-! ## Theorems: the service worker -/

namespace SW

theorem urlMatches_self (url : String) : urlMatches url url = true := by
  simp [urlMatches]

theorem urlMatches_of_matches (cached url url2 : String)
    (h : urlMatches url2 url = true) : urlMatches cached url2 = urlMatches cached url := by
  simp only [urlMatches, beq_iff_eq] at h
  simp only [urlMatches, h]

theorem cacheMatch_of_matches (c : Cache) (url url2 : String)
    (h : urlMatches url2 url = true) : cacheMatch c url2 = cacheMatch c url := by
  simp only [cacheMatch, urlMatches_of_matches _ url url2 h]

theorem cachesMatch_of_matches (cs : CacheStorage) (url url2 : String)
    (h : urlMatches url2 url = true) : cachesMatch cs url2 = cachesMatch cs url := by
  simp only [cachesMatch, cacheMatch_of_matches _ url url2 h]

theorem cacheMatch_append_put (c : Cache) (url : String) (r : Response) :
    cacheMatch (c.filter (fun e => !urlMatches e.1 url) ++ [(url, r)]) url = some r := by
  induction c with
  | nil => simp [cacheMatch, urlMatches_self]
  | cons e c ih =>
    by_cases h : urlMatches e.1 url = true
    · simpa [List.filter_cons, h] using ih
    · have hne : (!urlMatches e.1 url) = true := by simpa using h
      simp only [List.filter_cons, hne, if_true, List.cons_append]
      simp only [cacheMatch] at ih ⊢
      rw [List.find?_cons_of_neg]
      · exact ih
      · exact h

/-- A `put` under a URL that does not match leaves the lookup of a cache as it was. -/
theorem cacheMatch_append_put_other (c : Cache) (url url2 : String) (r2 : Response)
    (h : urlMatches url2 url = false) :
    cacheMatch (c.filter (fun e => !urlMatches e.1 url2) ++ [(url2, r2)]) url
      = cacheMatch c url := by
  induction c with
  | nil => simp [cacheMatch, h]
  | cons e c ih =>
    simp only [cacheMatch] at ih ⊢
    by_cases he : urlMatches e.1 url = true
    · have h2 : urlMatches e.1 url2 = false := by
        cases hx : urlMatches e.1 url2 with
        | false => rfl
        | true =>
          simp only [urlMatches, beq_iff_eq] at he hx
          have : urlMatches url2 url = true := by
            simp only [urlMatches, beq_iff_eq]
            rw [← hx, he]
          rw [h] at this
          exact absurd this (by decide)
      simp only [List.filter_cons, h2, Bool.not_false, if_true, List.cons_append,
        List.find?_cons, he]
    · have hef : urlMatches e.1 url = false := by simpa using he
      by_cases h2 : urlMatches e.1 url2 = true
      · simp only [List.filter_cons, h2, Bool.not_true, Bool.false_eq_true, if_false,
          List.find?_cons, hef]
        exact ih
      · have h2f : urlMatches e.1 url2 = false := by simpa using h2
        simp only [List.filter_cons, h2f, Bool.not_false, if_true, List.cons_append,
          List.find?_cons, hef]
        exact ih

/-- A `put` under a URL that does not match leaves the lookup of the storage as it was. -/
theorem cachesMatch_cachePut_other (cs : CacheStorage) (name url url2 : String)
    (r2 : Response) (h : urlMatches url2 url = false) :
    cachesMatch (cachePut cs name url2 r2) url = cachesMatch cs url := by
  induction cs with
  | nil => rfl
  | cons nc cs ih =>
    simp only [cachesMatch, cachePut] at ih ⊢
    simp only [List.map_cons, List.findSome?_cons]
    rw [ih]
    by_cases hn : (nc.1 == name) = true
    · simp only [hn, if_true, cacheMatch_append_put_other _ url url2 r2 h]
    · have hnf : (nc.1 == name) = false := by simpa using hn
      simp only [hnf, Bool.false_eq_true, if_false]

/-- Leaving out caches that miss a URL leaves the lookup of the storage as it was. -/
theorem cachesMatch_filter (cs : CacheStorage) (keep : String × Cache → Bool) (url : String)
    (h : ∀ nc ∈ cs, keep nc = false → cacheMatch nc.2 url = none) :
    cachesMatch (cs.filter keep) url = cachesMatch cs url := by
  induction cs with
  | nil => rfl
  | cons nc cs ih =>
    have ih2 := ih (fun x hx => h x (List.mem_cons_of_mem _ hx))
    simp only [cachesMatch] at ih2 ⊢
    cases hk : keep nc with
    | true =>
      simp only [List.filter_cons, hk, if_true, List.findSome?_cons, ih2]
    | false =>
      have hm := h nc (by simp) hk
      simp only [List.filter_cons, hk, Bool.false_eq_true, if_false, List.findSome?_cons, hm,
        ih2]

theorem cachesMatch_eq_none_iff (cs : CacheStorage) (url : String) :
    cachesMatch cs url = none ↔ ∀ nc ∈ cs, cacheMatch nc.2 url = none := by
  simp [cachesMatch, List.findSome?_eq_none_iff]

theorem cachesMatch_cachesOpen (cs : CacheStorage) (name url : String) :
    cachesMatch (cachesOpen cs name) url = cachesMatch cs url := by
  unfold cachesOpen
  split
  · rfl
  · simp [cachesMatch, List.findSome?_append, cacheMatch]

theorem cachesOpen_has (cs : CacheStorage) (name : String) :
    ∃ nc ∈ cachesOpen cs name, nc.1 = name := by
  unfold cachesOpen
  split
  · rename_i h
    simpa using h
  · exact ⟨(name, []), by simp, rfl⟩

theorem cachesMatch_cachePut (cs : CacheStorage) (name url : String) (r : Response)
    (hmiss : ∀ nc ∈ cs, cacheMatch nc.2 url = none) (hname : ∃ nc ∈ cs, nc.1 = name) :
    cachesMatch (cachePut cs name url r) url = some r := by
  induction cs with
  | nil => simp at hname
  | cons nc cs ih =>
    by_cases h : nc.1 = name
    · simp [cachesMatch, cachePut, h, cacheMatch_append_put]
    · have hm : cacheMatch nc.2 url = none := hmiss nc (by simp)
      have hname2 : ∃ nc2 ∈ cs, nc2.1 = name := by
        obtain ⟨x, hx, hxn⟩ := hname
        rcases List.mem_cons.1 hx with rfl | hx
        · exact absurd hxn h
        · exact ⟨x, hx, hxn⟩
      have := ih (fun x hx => hmiss x (List.mem_cons_of_mem _ hx)) hname2
      simp only [cachesMatch, cachePut] at this ⊢
      simp only [List.map_cons, List.findSome?_cons]
      have hb : (nc.1 == name) = false := by simpa using h
      simp only [hb, Bool.false_eq_true, if_false, hm]
      exact this

theorem generationMatch_cachePut (cs : CacheStorage) (name url : String) (r : Response)
    (hname : ∃ nc ∈ cs, nc.1 = name) :
    generationMatch (cachePut cs name url r) name url = some r := by
  induction cs with
  | nil => simp at hname
  | cons nc cs ih =>
    by_cases h : nc.1 = name
    · simp [generationMatch, cachePut, h, cacheMatch_append_put]
    · have hname2 : ∃ nc2 ∈ cs, nc2.1 = name := by
        obtain ⟨x, hx, hxn⟩ := hname
        rcases List.mem_cons.1 hx with rfl | hx
        · exact absurd hxn h
        · exact ⟨x, hx, hxn⟩
      have := ih hname2
      simp only [generationMatch, cachePut] at this ⊢
      simp only [List.map_cons]
      have hb : (nc.1 == name) = false := by simpa using h
      simp only [hb, Bool.false_eq_true, if_false]
      rw [List.find?_cons_of_neg _ (by simpa using h)]
      exact this

theorem foldl_delete_stale (names : List String) (acc : CacheStorage) :
    names.foldl
      (fun acc cacheName => if cacheName != CACHE_NAME then cachesDelete acc cacheName else acc)
      acc
    = acc.filter (fun nc => nc.1 == CACHE_NAME || !decide (nc.1 ∈ names)) := by
  induction names generalizing acc with
  | nil => simp
  | cons n names ih =>
    simp only [List.foldl_cons]
    rw [ih]
    by_cases h : n = CACHE_NAME
    · simp only [h, bne_self_eq_false, Bool.false_eq_true, if_false]
      apply List.filter_congr
      intro nc _
      by_cases h2 : nc.1 = CACHE_NAME <;> simp [h2]
    · have hne : (n != CACHE_NAME) = true := by simpa using h
      simp only [hne, if_true, cachesDelete, List.filter_filter]
      apply List.filter_congr
      intro nc _
      by_cases h2 : nc.1 = n
      · simp [h2, h]
      · simp [h2]

theorem foldl_delete_all (names : List String) (acc : CacheStorage) :
    names.foldl (fun acc cacheName => cachesDelete acc cacheName) acc
    = acc.filter (fun nc => !decide (nc.1 ∈ names)) := by
  induction names generalizing acc with
  | nil => simp
  | cons n names ih =>
    simp only [List.foldl_cons]
    rw [ih]
    simp only [cachesDelete, List.filter_filter]
    apply List.filter_congr
    intro nc _
    by_cases h2 : nc.1 = n <;> simp [h2]

/-- The storage after activation: the caches named `CACHE_NAME`, as they were. -/
theorem activateHandler_caches (cs : CacheStorage) :
    (activateHandler cs).caches = cs.filter (fun nc => nc.1 == CACHE_NAME) := by
  simp only [activateHandler]
  rw [foldl_delete_stale]
  apply List.filter_congr
  intro nc hnc
  have : nc.1 ∈ cachesKeys cs := List.mem_map_of_mem (fun nc => nc.1) hnc
  simp [this]

/-- The fetch handler leaves the storage as it was, or, after a miss of `caches.match`,
puts one response under the URL of the request into the generation `CACHE_NAME`. -/
theorem fetchHandler_caches (origin : String) (net : Net) (cs : CacheStorage)
    (request : Request) :
    (fetchHandler origin net cs request).caches = cs ∨
    (cachesMatch cs request.url = none ∧
      ∃ nr, (fetchHandler origin net cs request).caches
        = cachePut (cachesOpen cs CACHE_NAME) CACHE_NAME request.url nr) := by
  unfold fetchHandler
  split
  · exact Or.inl rfl
  · split
    · exact Or.inl rfl
    · split
      · exact Or.inl rfl
      · rename_i hnone
        split
        · rename_i nr _
          split
          · exact Or.inl rfl
          · exact Or.inr ⟨hnone, nr, rfl⟩
        · exact Or.inl rfl

/-- A message whose action is not `clearCache` leaves the storage as it was. -/
theorem messageHandler_caches (cs : CacheStorage) (data : MessageData)
    (h : (data.action == "clearCache") = false) : (messageHandler cs data).caches = cs := by
  unfold messageHandler
  simp [h]

/-- An entry that `caches.match` finds, and that no cache of another name than `CACHE_NAME`
holds, is still what `caches.match` finds after any event that does not clear the storage,
and still no cache of another name holds it. -/
theorem handle_keeps_entry (origin : String) (cs : CacheStorage) (url : String)
    (r : Response) (e : WorkerEvent) (hclear : e.clears = false)
    (hhit : cachesMatch cs url = some r)
    (hother : ∀ nc ∈ cs, nc.1 ≠ CACHE_NAME → cacheMatch nc.2 url = none) :
    cachesMatch (handle origin cs e) url = some r ∧
    ∀ nc ∈ handle origin cs e, nc.1 ≠ CACHE_NAME → cacheMatch nc.2 url = none := by
  cases e with
  | fetch net request =>
    show cachesMatch (fetchHandler origin net cs request).caches url = some r ∧
      ∀ nc ∈ (fetchHandler origin net cs request).caches, nc.1 ≠ CACHE_NAME →
        cacheMatch nc.2 url = none
    rcases fetchHandler_caches origin net cs request with h | ⟨hnone, nr, h⟩
    · rw [h]
      exact ⟨hhit, hother⟩
    · rw [h]
      have hdiff : urlMatches request.url url = false := by
        cases hx : urlMatches request.url url with
        | false => rfl
        | true =>
          rw [cachesMatch_of_matches cs url request.url hx, hhit] at hnone
          exact absurd hnone (by simp)
      constructor
      · rw [cachesMatch_cachePut_other _ _ _ _ _ hdiff, cachesMatch_cachesOpen]
        exact hhit
      · intro nc hnc hname
        simp only [cachePut, List.mem_map] at hnc
        obtain ⟨x, hx, hxe⟩ := hnc
        by_cases hxn : (x.1 == CACHE_NAME) = true
        · simp only [hxn, if_true] at hxe
          rw [← hxe] at hname
          exact absurd (by simpa using hxn) hname
        · have hxf : (x.1 == CACHE_NAME) = false := by simpa using hxn
          simp only [hxf, Bool.false_eq_true, if_false] at hxe
          subst hxe
          have hmem : x ∈ cs := by
            unfold cachesOpen at hx
            split at hx
            · exact hx
            · rcases List.mem_append.1 hx with h1 | h1
              · exact h1
              · simp only [List.mem_singleton] at h1
                rw [h1] at hname
                exact absurd rfl hname
          exact hother x hmem hname
  | message data =>
    show cachesMatch (messageHandler cs data).caches url = some r ∧
      ∀ nc ∈ (messageHandler cs data).caches, nc.1 ≠ CACHE_NAME → cacheMatch nc.2 url = none
    rw [messageHandler_caches cs data hclear]
    exact ⟨hhit, hother⟩
  | activate =>
    show cachesMatch (activateHandler cs).caches url = some r ∧
      ∀ nc ∈ (activateHandler cs).caches, nc.1 ≠ CACHE_NAME → cacheMatch nc.2 url = none
    rw [activateHandler_caches]
    constructor
    · rw [cachesMatch_filter]
      · exact hhit
      · intro nc hnc hk
        exact hother nc hnc (by simpa using hk)
    · intro nc hnc hname
      exact hother nc (List.mem_of_mem_filter hnc) hname

/-- The same, after any sequence of events none of which clears the storage. -/
theorem handleAll_keeps_entry (origin : String) (url : String) (r : Response)
    (events : List WorkerEvent) (cs : CacheStorage)
    (hclear : ∀ e ∈ events, e.clears = false)
    (hhit : cachesMatch cs url = some r)
    (hother : ∀ nc ∈ cs, nc.1 ≠ CACHE_NAME → cacheMatch nc.2 url = none) :
    cachesMatch (handleAll origin cs events) url = some r := by
  induction events generalizing cs with
  | nil => exact hhit
  | cons e events ih =>
    have h := handle_keeps_entry origin cs url r e (hclear e (by simp)) hhit hother
    exact ih (handle origin cs e) (fun x hx => hclear x (List.mem_cons_of_mem _ hx)) h.1 h.2

/-- After a miss of `caches.match`, the `put` into the generation `CACHE_NAME` leaves the
caches of every other name without an entry for the URL. -/
theorem cachePut_other_names_miss (cs : CacheStorage) (url : String) (r : Response)
    (hnone : cachesMatch cs url = none) :
    ∀ nc ∈ cachePut (cachesOpen cs CACHE_NAME) CACHE_NAME url r,
      nc.1 ≠ CACHE_NAME → cacheMatch nc.2 url = none := by
  intro nc hnc hname
  simp only [cachePut, List.mem_map] at hnc
  obtain ⟨x, hx, hxe⟩ := hnc
  by_cases hxn : (x.1 == CACHE_NAME) = true
  · simp only [hxn, if_true] at hxe
    rw [← hxe] at hname
    exact absurd (by simpa using hxn) hname
  · have hxf : (x.1 == CACHE_NAME) = false := by simpa using hxn
    simp only [hxf, Bool.false_eq_true, if_false] at hxe
    subst hxe
    have hmem : x ∈ cs := by
      unfold cachesOpen at hx
      split at hx
      · exact hx
      · rcases List.mem_append.1 hx with h1 | h1
        · exact h1
        · simp only [List.mem_singleton] at h1
          rw [h1] at hname
          exact absurd rfl hname
    exact (cachesMatch_eq_none_iff cs url).1 hnone x hmem

/-- The promise the install handler hands to `event.waitUntil` is fulfilled whatever the
network answers: the `catch` callback of line 43 swallows the rejection. -/
theorem install_waitUntil_fulfilled (base : String) (net : Net) (cs : CacheStorage) :
    (installHandler base net cs).waitUntil = some (.ok ()) := by
  unfold installHandler
  simp only []
  split <;> rfl

/-- C1, the code at the failing input: with the fetch of the manifest file rejected,
`cache.addAll` over the manifest rejects, yet the promise the install handler hands to
`event.waitUntil` is fulfilled, `skipWaiting` is not called, and the current generation
holds no entry for the manifest file (nor for any other resource). -/
theorem install_fulfilled_when_addAll_rejects :
    cacheAddAll manifestDownNet (cachesOpen [] CACHE_NAME) CACHE_NAME
        (CACHE_RESOURCES.map (resolveUrl exampleBase)) = .error "TypeError: Failed to fetch" ∧
    (installHandler exampleBase manifestDownNet []).waitUntil = some (.ok ()) ∧
    (installHandler exampleBase manifestDownNet []).caches = [(CACHE_NAME, [])] ∧
    generationMatch (installHandler exampleBase manifestDownNet []).caches CACHE_NAME
        "https://app.example/pwa/manifest.json" = none := by
  decide

/-- A request whose method is not GET is not answered by the worker and touches neither
the cache storage nor the network. -/
theorem fetch_passes_non_get (origin : String) (net : Net) (cs : CacheStorage)
    (request : Request) (h : request.method ≠ "GET") :
    fetchHandler origin net cs request = { respondWith := none, caches := cs, effects := [] } := by
  unfold fetchHandler
  have hb : (request.method != "GET") = true := by simpa using h
  simp [hb]

/-- A GET request whose URL does not begin with the text of the worker's origin is not
answered by the worker and touches neither the cache storage nor the network. -/
theorem fetch_passes_when_not_prefixed (origin : String) (net : Net) (cs : CacheStorage)
    (request : Request) (h : startsWith request.url origin = false) :
    fetchHandler origin net cs request = { respondWith := none, caches := cs, effects := [] } := by
  unfold fetchHandler
  split
  · rfl
  · simp [h]

/-- C2, the code at the failing input: a GET request to `https://app.example.evil.net/x`
has an origin other than the worker's `https://app.example`, but its URL begins with the
text of that origin, so the handler calls `event.respondWith`, reads the cache storage
and writes the response into the current generation. -/
theorem fetch_intercepts_foreign_origin :
    foreignRequest.method = "GET" ∧
    urlOrigin foreignRequest.url = "https://app.example.evil.net" ∧
    urlOrigin foreignRequest.url ≠ exampleOrigin ∧
    (fetchHandler exampleOrigin (constNet "x") [] foreignRequest).respondWith
      = some (.ok { status := 200, type := "cors", body := "x" }) ∧
    (fetchHandler exampleOrigin (constNet "x") [] foreignRequest).effects
      = [Effect.cachesMatch foreignRequest.url, Effect.netFetch foreignRequest.url,
         Effect.cachesOpen CACHE_NAME, Effect.cachePut CACHE_NAME foreignRequest.url] ∧
    generationMatch (fetchHandler exampleOrigin (constNet "x") [] foreignRequest).caches
      CACHE_NAME foreignRequest.url = some { status := 200, type := "cors", body := "x" } := by
  decide

/-- A hit of `caches.match` is the answer of the handler, with no further effect. -/
theorem fetchHandler_hit (origin : String) (net : Net) (cs : CacheStorage) (request : Request)
    (r : Response) (hget : request.method = "GET")
    (horigin : startsWith request.url origin = true)
    (hr : cachesMatch cs request.url = some r) :
    fetchHandler origin net cs request
      = { respondWith := some (.ok r), caches := cs
          effects := [Effect.cachesMatch request.url] } := by
  have hm : (request.method != "GET") = false := by simp [hget]
  unfold fetchHandler
  simp [hm, horigin, hr]

/-- A miss of `caches.match` is followed by exactly one network fetch. -/
theorem fetchHandler_miss_netFetchCount (origin : String) (net : Net) (cs : CacheStorage)
    (request : Request) (hget : request.method = "GET")
    (horigin : startsWith request.url origin = true)
    (hnone : cachesMatch cs request.url = none) :
    netFetchCount (fetchHandler origin net cs request).effects = 1 := by
  have hm : (request.method != "GET") = false := by simp [hget]
  unfold fetchHandler
  simp only [hm, horigin, hnone]
  cases hn : net request.url with
  | none => simp [netFetchCount, Effect.isNetFetch]
  | some nr =>
    by_cases hc : (nr.status != 200 || nr.type == "error") = true
    · simp [hc, netFetchCount, Effect.isNetFetch]
    · simp [hc, netFetchCount, Effect.isNetFetch]

/-- A request whose URL differs from a stored one only in its fragment is answered from
the cache, with no network fetch. -/
theorem fetch_hit_ignores_fragment :
    fetchHandler exampleOrigin (constNet "new script") oneGeneration fragmentRequest
      = { respondWith := some (.ok staleResponse), caches := oneGeneration
          effects := [Effect.cachesMatch fragmentRequest.url] } := by
  decide

/-- C3 as stated fails: the current generation holds no entry for the request, a
generation of another name does, and the handler answers from that one with no network
fetch at all, where the claim has exactly one. -/
theorem fetch_answers_from_other_generation :
    shellRequest.method = "GET" ∧
    startsWith shellRequest.url exampleOrigin = true ∧
    generationMatch twoGenerations CACHE_NAME shellRequest.url = none ∧
    (fetchHandler exampleOrigin (constNet "new script") twoGenerations shellRequest).respondWith
      = some (.ok staleResponse) ∧
    netFetchCount
      (fetchHandler exampleOrigin (constNet "new script") twoGenerations shellRequest).effects
      = 0 := by
  decide

/-- C3, amended: the fetch handler is cache-first over all existing caches. For a GET
request whose URL begins with the worker's origin: if `caches.match` finds an entry in any
cache, that response is the answer, no network fetch is made and the storage is unchanged;
if no cache holds an entry, exactly one network fetch is made, and when it yields a
response of status 200 whose type is not `error`, that response is the answer, a copy is
stored in the generation `CACHE_NAME`, and from then on, after any sequence of further
fetches, messages and activations none of which is a `clearCache` message, the same
request is answered with that copy, with no network fetch and an unchanged storage. -/
theorem fetch_cache_first_over_all_caches (origin : String) (net net2 : Net)
    (cs : CacheStorage) (request : Request)
    (hget : request.method = "GET") (horigin : startsWith request.url origin = true) :
    (∀ r, cachesMatch cs request.url = some r →
      fetchHandler origin net cs request
        = { respondWith := some (.ok r), caches := cs
            effects := [Effect.cachesMatch request.url] }) ∧
    (cachesMatch cs request.url = none →
      netFetchCount (fetchHandler origin net cs request).effects = 1 ∧
      ∀ nr, net request.url = some nr → nr.status = 200 → nr.type ≠ "error" →
        (fetchHandler origin net cs request).respondWith = some (.ok nr) ∧
        generationMatch (fetchHandler origin net cs request).caches CACHE_NAME request.url
          = some nr ∧
        ∀ events : List WorkerEvent, (∀ e ∈ events, e.clears = false) →
          fetchHandler origin net2
              (handleAll origin (fetchHandler origin net cs request).caches events) request
            = { respondWith := some (.ok nr)
                caches := handleAll origin (fetchHandler origin net cs request).caches events
                effects := [Effect.cachesMatch request.url] }) := by
  have hm : (request.method != "GET") = false := by simp [hget]
  refine ⟨fun r hr => fetchHandler_hit origin net cs request r hget horigin hr, ?_⟩
  intro hnone
  constructor
  · exact fetchHandler_miss_netFetchCount origin net cs request hget horigin hnone
  · intro nr hn hstatus htype
    have hc : (nr.status != 200 || nr.type == "error") = false := by simp [hstatus, htype]
    have hres : fetchHandler origin net cs request
        = { respondWith := some (.ok nr)
            caches := cachePut (cachesOpen cs CACHE_NAME) CACHE_NAME request.url nr
            effects := [Effect.cachesMatch request.url, Effect.netFetch request.url,
              Effect.cachesOpen CACHE_NAME, Effect.cachePut CACHE_NAME request.url] } := by
      unfold fetchHandler
      simp [hm, horigin, hnone, hn, hc, promiseCatch]
    rw [hres]
    refine ⟨rfl, generationMatch_cachePut _ _ _ _ (cachesOpen_has cs CACHE_NAME), ?_⟩
    intro events hclear
    apply fetchHandler_hit _ _ _ _ _ hget horigin
    apply handleAll_keeps_entry origin request.url nr events _ hclear
    · apply cachesMatch_cachePut _ _ _ _ _ (cachesOpen_has cs CACHE_NAME)
      rw [← cachesMatch_eq_none_iff, cachesMatch_cachesOpen]
      exact hnone
    · exact cachePut_other_names_miss cs request.url nr hnone

/-- C3, amended, at a concrete input: an empty storage and a network that serves the
script; then a fetch of another URL, a message that skips waiting and an activation; then
the request for the script again, on another network. -/
theorem fetch_cache_first_over_all_caches_witness :
    netFetchCount (fetchHandler exampleOrigin (constNet "a") [] shellRequest).effects = 1 ∧
    fetchHandler exampleOrigin (constNet "b")
        (handleAll exampleOrigin (fetchHandler exampleOrigin (constNet "a") [] shellRequest).caches
          laterEvents) shellRequest
      = { respondWith := some (.ok { status := 200, type := "cors", body := "a" })
          caches :=
            handleAll exampleOrigin
              (fetchHandler exampleOrigin (constNet "a") [] shellRequest).caches laterEvents
          effects := [Effect.cachesMatch shellRequest.url] } :=
  have h := (fetch_cache_first_over_all_caches exampleOrigin (constNet "a") (constNet "b") []
    shellRequest (by decide) (by decide)).2 (by decide)
  ⟨h.1, (h.2 { status := 200, type := "cors", body := "a" } (by decide) (by decide)
    (by decide)).2.2 laterEvents (by decide)⟩

/-- C4: after the activate handler, the cache storage is the original one restricted to
the caches named `CACHE_NAME`, contents included: a name remains exactly when it existed
and is `CACHE_NAME`; `caches.delete` is called on exactly the existing names other than
`CACHE_NAME`, in order, between `caches.keys()` and `clients.claim()`; and the promise
handed to `event.waitUntil` is fulfilled. -/
theorem activate_purges_exactly_stale (cs : CacheStorage) :
    (activateHandler cs).caches = cs.filter (fun nc => nc.1 == CACHE_NAME) ∧
    (∀ name, name ∈ cachesKeys (activateHandler cs).caches ↔
      (name ∈ cachesKeys cs ∧ name = CACHE_NAME)) ∧
    (activateHandler cs).effects
      = [Effect.cachesKeys]
        ++ ((cachesKeys cs).filter (fun name => name != CACHE_NAME)).map Effect.cachesDelete
        ++ [Effect.clientsClaim] ∧
    Effect.cachesDelete CACHE_NAME ∉ (activateHandler cs).effects ∧
    (activateHandler cs).waitUntil = some (.ok ()) := by
  have hc := activateHandler_caches cs
  refine ⟨hc, ?_, rfl, ?_, rfl⟩
  · intro name
    rw [hc]
    simp only [cachesKeys, List.mem_map, List.mem_filter, beq_iff_eq]
    constructor
    · rintro ⟨nc, ⟨hmem, hcn⟩, rfl⟩
      exact ⟨⟨nc, hmem, rfl⟩, hcn⟩
    · rintro ⟨⟨nc, hmem, rfl⟩, hcn⟩
      exact ⟨nc, ⟨hmem, hcn⟩, rfl⟩
  · simp [activateHandler]

/-- C5 as stated fails: a message whose action is the text `clear-cache` is not one the
handler knows (it compares with `clearCache`): no cache is deleted, nothing is handed to
`event.waitUntil`, and the stored request is still answered from the cache. -/
theorem message_clear_dash_cache_ignored :
    messageHandler oneGeneration { action := "clear-cache" }
      = { waitUntil := none, caches := oneGeneration, effects := [] } ∧
    oneGeneration ≠ [] ∧
    (fetchHandler exampleOrigin (constNet "new script")
      (messageHandler oneGeneration { action := "clear-cache" }).caches shellRequest)
      = { respondWith := some (.ok staleResponse), caches := oneGeneration
          effects := [Effect.cachesMatch shellRequest.url] } := by
  decide

/-- C5, amended: the control message whose action is `clearCache` deletes every existing
cache, whatever the storage holds: `caches.delete` is called on every existing name, no
cache remains, a lookup of any request misses, and a GET request whose URL begins with
the worker's origin then makes exactly one network fetch. -/
theorem message_clearCache_deletes_all (cs : CacheStorage) (origin : String) (net : Net)
    (request : Request)
    (hget : request.method = "GET") (horigin : startsWith request.url origin = true) :
    (messageHandler cs { action := "clearCache" }).caches = [] ∧
    (messageHandler cs { action := "clearCache" }).effects
      = [Effect.cachesKeys] ++ (cachesKeys cs).map Effect.cachesDelete ∧
    cachesMatch (messageHandler cs { action := "clearCache" }).caches request.url = none ∧
    netFetchCount
      (fetchHandler origin net (messageHandler cs { action := "clearCache" }).caches
        request).effects = 1 := by
  have hc : (messageHandler cs { action := "clearCache" }).caches = [] := by
    have hd : (("clearCache" : String) == "clearCache") = true := by decide
    simp only [messageHandler, hd, if_true]
    rw [foldl_delete_all]
    rw [List.filter_eq_nil_iff]
    intro nc hnc
    have : nc.1 ∈ cachesKeys cs := List.mem_map_of_mem (fun nc => nc.1) hnc
    simp [this]
  have he : (messageHandler cs { action := "clearCache" }).effects
      = [Effect.cachesKeys] ++ (cachesKeys cs).map Effect.cachesDelete := by
    have hd : (("clearCache" : String) == "clearCache") = true := by decide
    have hs : (("clearCache" : String) == "skipWaiting") = false := by decide
    simp [messageHandler, hd, hs]
  refine ⟨hc, he, ?_, ?_⟩
  · rw [hc]; rfl
  · rw [hc]
    exact fetchHandler_miss_netFetchCount origin net [] request hget horigin rfl

/-- C5, amended, at a concrete input: two generations, then a request for the script. -/
theorem message_clearCache_deletes_all_witness :
    (messageHandler twoGenerations { action := "clearCache" }).caches = [] ∧
    netFetchCount
      (fetchHandler exampleOrigin (constNet "a")
        (messageHandler twoGenerations { action := "clearCache" }).caches
        shellRequest).effects = 1 :=
  have h := message_clearCache_deletes_all twoGenerations exampleOrigin (constNet "a")
    shellRequest (by decide) (by decide)
  ⟨h.1, h.2.2.2⟩

end SW

/-! ## Theorems: the camera page -/

namespace App

theorem foldl_stop (ts l : List Nat) :
    ts.foldl (fun live track => live.filter (fun t => t != track)) l
      = l.filter (fun t => !decide (t ∈ ts)) := by
  induction ts generalizing l with
  | nil => simp
  | cons a ts ih =>
    simp only [List.foldl_cons]
    rw [ih, List.filter_filter]
    apply List.filter_congr
    intro t _
    by_cases h : t = a <;> simp [h]

theorem init_inv (ui : Ui) : Inv (init ui) where
  sink := rfl
  live := rfl
  mode := Or.inl rfl
  fresh := by simp [init]
  stopped := by simp [init]

theorem closeCamera_of_closed (s : State) (h : s.stream = none) : closeCamera s = s := by
  unfold closeCamera
  simp [h]

theorem closeCamera_stream (s : State) : (closeCamera s).stream = none := by
  unfold closeCamera
  split
  · rfl
  · assumption

theorem closeCamera_mode (s : State) :
    (closeCamera s).currentFacingMode = s.currentFacingMode := by
  unfold closeCamera
  split <;> rfl

theorem closeCamera_next (s : State) : (closeCamera s).nextTrackId = s.nextTrackId := by
  unfold closeCamera
  split <;> rfl

theorem closeCamera_photos (s : State) : (closeCamera s).capturedPhotos = s.capturedPhotos := by
  unfold closeCamera
  split <;> rfl

theorem closeCamera_log (s : State) (old : MediaStream) (h : s.stream = some old) :
    (closeCamera s).log = s.log ++ old.tracks.map Event.trackStop ++ [Event.setSrcObject none] := by
  unfold closeCamera
  simp [h]

theorem closeCamera_live (s : State) (hinv : Inv s) : (closeCamera s).liveTracks = [] := by
  have hl := hinv.live
  unfold closeCamera
  cases hs : s.stream with
  | none => simpa [hs] using hl
  | some st =>
    simp only [hs, Option.map_some', Option.getD_some] at hl
    simp only [foldl_stop, hl]
    simp

theorem closeCamera_sink (s : State) (hinv : Inv s) : (closeCamera s).videoSrcObject = none := by
  have hk := hinv.sink
  unfold closeCamera
  cases hs : s.stream with
  | none => simpa [hs] using hk
  | some st => rfl

theorem closeCamera_inv (s : State) (hinv : Inv s) : Inv (closeCamera s) where
  sink := by rw [closeCamera_sink s hinv, closeCamera_stream]
  live := by rw [closeCamera_live s hinv, closeCamera_stream]; rfl
  mode := by rw [closeCamera_mode]; exact hinv.mode
  fresh := by rw [closeCamera_live s hinv]; simp
  stopped := by
    intro t ht
    rw [closeCamera_next] at ht
    right
    cases hs : s.stream with
    | none =>
      rw [closeCamera_of_closed s hs]
      have hl := hinv.live
      rw [hs] at hl
      rcases hinv.stopped t ht with h | h
      · rw [hl] at h; simp at h
      · exact h
    | some st =>
      rw [closeCamera_log s st hs]
      have hl := hinv.live
      rw [hs] at hl
      simp only [Option.map_some', Option.getD_some] at hl
      rcases hinv.stopped t ht with h | h
      · rw [hl] at h
        simp [h]
      · simp [h]

theorem checkForFrontCamera_fields (s : State) (devices : Except String (List MediaDeviceInfo)) :
    (checkForFrontCamera s devices).1.stream = s.stream ∧
    (checkForFrontCamera s devices).1.videoSrcObject = s.videoSrcObject ∧
    (checkForFrontCamera s devices).1.liveTracks = s.liveTracks ∧
    (checkForFrontCamera s devices).1.currentFacingMode = s.currentFacingMode ∧
    (checkForFrontCamera s devices).1.nextTrackId = s.nextTrackId ∧
    (checkForFrontCamera s devices).1.capturedPhotos = s.capturedPhotos ∧
    (checkForFrontCamera s devices).1.log = s.log ++ [Event.enumerateDevices] := by
  unfold checkForFrontCamera
  cases devices <;> simp

theorem closeCamera_guard (s : State) :
    (if s.stream.isSome then closeCamera s else s) = closeCamera s := by
  cases hs : s.stream with
  | none => simp [closeCamera_of_closed s hs]
  | some st => simp

theorem openCamera_ok_fields (s : State) (n : Nat)
    (devices : Except String (List MediaDeviceInfo)) :
    (openCamera s (.ok n) devices).stream = some { tracks := List.range' s.nextTrackId n } ∧
    (openCamera s (.ok n) devices).videoSrcObject
      = some { tracks := List.range' s.nextTrackId n } ∧
    (openCamera s (.ok n) devices).liveTracks
      = (closeCamera s).liveTracks ++ List.range' s.nextTrackId n ∧
    (openCamera s (.ok n) devices).currentFacingMode = s.currentFacingMode ∧
    (openCamera s (.ok n) devices).nextTrackId = s.nextTrackId + n ∧
    (openCamera s (.ok n) devices).capturedPhotos = s.capturedPhotos ∧
    (openCamera s (.ok n) devices).log
      = (closeCamera s).log ++ [Event.getUserMedia s.currentFacingMode,
          Event.setSrcObject (some { tracks := List.range' s.nextTrackId n }),
          Event.enumerateDevices] := by
  unfold openCamera
  rw [closeCamera_guard]
  simp only []
  split <;>
    simp [checkForFrontCamera_fields, closeCamera_mode, closeCamera_next, closeCamera_photos]

theorem openCamera_error_fields (s : State) (error : DOMException)
    (devices : Except String (List MediaDeviceInfo)) :
    (openCamera s (.error error) devices).stream = none ∧
    (openCamera s (.error error) devices).videoSrcObject = (closeCamera s).videoSrcObject ∧
    (openCamera s (.error error) devices).liveTracks = (closeCamera s).liveTracks ∧
    (openCamera s (.error error) devices).currentFacingMode = s.currentFacingMode ∧
    (openCamera s (.error error) devices).nextTrackId = s.nextTrackId ∧
    (openCamera s (.error error) devices).capturedPhotos = s.capturedPhotos ∧
    (openCamera s (.error error) devices).log
      = (closeCamera s).log ++ [Event.getUserMedia s.currentFacingMode,
          Event.alert (openErrorMessage error)] := by
  unfold openCamera
  rw [closeCamera_guard]
  simp [closeCamera_stream, closeCamera_mode, closeCamera_next, closeCamera_photos]

theorem openCamera_mode (s : State) (gum : Except DOMException Nat)
    (devices : Except String (List MediaDeviceInfo)) :
    (openCamera s gum devices).currentFacingMode = s.currentFacingMode := by
  cases gum with
  | ok n => exact (openCamera_ok_fields s n devices).2.2.2.1
  | error e => exact (openCamera_error_fields s e devices).2.2.2.1

theorem openCamera_photos (s : State) (gum : Except DOMException Nat)
    (devices : Except String (List MediaDeviceInfo)) :
    (openCamera s gum devices).capturedPhotos = s.capturedPhotos := by
  cases gum with
  | ok n => exact (openCamera_ok_fields s n devices).2.2.2.2.2.1
  | error e => exact (openCamera_error_fields s e devices).2.2.2.2.2.1

theorem openCamera_inv (s : State) (gum : Except DOMException Nat)
    (devices : Except String (List MediaDeviceInfo)) (hinv : Inv s) :
    Inv (openCamera s gum devices) := by
  have hc := closeCamera_inv s hinv
  have hlive := closeCamera_live s hinv
  cases gum with
  | error e =>
    obtain ⟨h1, h2, h3, h4, h5, _, h7⟩ := openCamera_error_fields s e devices
    refine ⟨?_, ?_, ?_, ?_, ?_⟩
    · rw [h1, h2, closeCamera_sink s hinv]
    · rw [h1, h3, hlive]; rfl
    · rw [h4]; exact hinv.mode
    · rw [h3, hlive]; simp
    · intro t ht
      rw [h5, ← closeCamera_next] at ht
      rcases hc.stopped t ht with h | h
      · rw [hlive] at h; simp at h
      · right; rw [h7]; simp [h]
  | ok n =>
    obtain ⟨h1, h2, h3, h4, h5, _, h7⟩ := openCamera_ok_fields s n devices
    refine ⟨?_, ?_, ?_, ?_, ?_⟩
    · rw [h1, h2]
    · rw [h1, h3, hlive]; rfl
    · rw [h4]; exact hinv.mode
    · intro t ht
      rw [h3, hlive] at ht
      rw [h5]
      simp only [List.nil_append, List.mem_range'_1] at ht
      omega
    · intro t ht
      rw [h5] at ht
      rw [h3, hlive, h7]
      by_cases hlt : t < s.nextTrackId
      · rw [← closeCamera_next] at hlt
        rcases hc.stopped t hlt with h | h
        · rw [hlive] at h; simp at h
        · right; simp [h]
      · left
        simp only [List.nil_append, List.mem_range'_1]
        omega

theorem switchCamera_mode (s : State) (gum : Except DOMException Nat)
    (devices : Except String (List MediaDeviceInfo)) :
    (switchCamera s gum devices).currentFacingMode
      = if s.currentFacingMode = "environment" then "user" else "environment" := by
  unfold switchCamera
  rw [openCamera_mode]
  by_cases h : s.currentFacingMode = "environment" <;> simp [h]

theorem switchCamera_inv (s : State) (gum : Except DOMException Nat)
    (devices : Except String (List MediaDeviceInfo)) (hinv : Inv s) :
    Inv (switchCamera s gum devices) := by
  unfold switchCamera
  apply openCamera_inv
  refine ⟨hinv.sink, hinv.live, ?_, hinv.fresh, hinv.stopped⟩
  show (if (s.currentFacingMode == "environment") = true then "user" else "environment")
      = "environment" ∨
    (if (s.currentFacingMode == "environment") = true then "user" else "environment") = "user"
  split
  · right; rfl
  · left; rfl

theorem displayPhotos_fields (s : State) :
    (displayPhotos s).stream = s.stream ∧
    (displayPhotos s).videoSrcObject = s.videoSrcObject ∧
    (displayPhotos s).liveTracks = s.liveTracks ∧
    (displayPhotos s).currentFacingMode = s.currentFacingMode ∧
    (displayPhotos s).nextTrackId = s.nextTrackId ∧
    (displayPhotos s).capturedPhotos = s.capturedPhotos ∧
    (displayPhotos s).log = s.log := by
  unfold displayPhotos
  split <;> simp

theorem displayPhotos_inv (s : State) (hinv : Inv s) : Inv (displayPhotos s) := by
  obtain ⟨h1, h2, h3, h4, h5, _, h7⟩ := displayPhotos_fields s
  refine ⟨?_, ?_, ?_, ?_, ?_⟩
  · rw [h1, h2]; exact hinv.sink
  · rw [h1, h3]; exact hinv.live
  · rw [h4]; exact hinv.mode
  · rw [h3, h5]; exact hinv.fresh
  · rw [h3, h5, h7]; exact hinv.stopped

theorem capturePhoto_inv (s : State) (f : Frame) (hinv : Inv s) : Inv (capturePhoto s f) := by
  unfold capturePhoto
  split
  · refine ⟨hinv.sink, hinv.live, hinv.mode, hinv.fresh, ?_⟩
    intro t ht
    rcases hinv.stopped t ht with h | h
    · exact Or.inl h
    · right
      show Event.trackStop t ∈ s.log ++ [Event.alert cameraClosedMessage]
      simp [h]
  · apply displayPhotos_inv
    refine ⟨hinv.sink, hinv.live, hinv.mode, hinv.fresh, ?_⟩
    intro t ht
    rcases hinv.stopped t ht with h | h
    · exact Or.inl h
    · right
      show Event.trackStop t ∈ s.log ++ [Event.drawImage f.videoWidth f.videoHeight]
      simp [h]

theorem deletePhoto_inv (s : State) (photoId : Nat) (hinv : Inv s) :
    Inv (deletePhoto s photoId) := by
  unfold deletePhoto
  apply displayPhotos_inv
  exact ⟨hinv.sink, hinv.live, hinv.mode, hinv.fresh, hinv.stopped⟩

theorem step_inv (s : State) (c : Call) (hinv : Inv s) : Inv (step s c) := by
  cases c with
  | openCamera gum devices => exact openCamera_inv s gum devices hinv
  | closeCamera => exact closeCamera_inv s hinv
  | switchCamera gum devices => exact switchCamera_inv s gum devices hinv
  | capturePhoto f => exact capturePhoto_inv s f hinv
  | deletePhoto photoId => exact deletePhoto_inv s photoId hinv
  | clickOpenCameraBtn gum devices =>
    show Inv (onOpenCameraBtnClick s gum devices)
    unfold onOpenCameraBtnClick
    split
    · exact closeCamera_inv s hinv
    · exact openCamera_inv s gum devices hinv

theorem run_inv (s : State) (calls : List Call) (hinv : Inv s) : Inv (run s calls) := by
  induction calls generalizing s with
  | nil => exact hinv
  | cons c calls ih => exact ih (step s c) (step_inv s c hinv)

/-- C6: after any sequence of serialized calls that ends in `closeCamera()`, the active
stream is absent, the preview has no `srcObject`, no track is live, and every track the
platform has handed out so far has a `stop()` in the log; a further `closeCamera()`
changes nothing, and `closeCamera()` changes no state in which the stream is absent. -/
theorem closeCamera_releases_every_track (ui : Ui) (calls : List Call) :
    (run (init ui) (calls ++ [Call.closeCamera])).stream = none ∧
    (run (init ui) (calls ++ [Call.closeCamera])).videoSrcObject = none ∧
    (run (init ui) (calls ++ [Call.closeCamera])).liveTracks = [] ∧
    (∀ t, t < (run (init ui) (calls ++ [Call.closeCamera])).nextTrackId →
      Event.trackStop t ∈ (run (init ui) (calls ++ [Call.closeCamera])).log) ∧
    closeCamera (run (init ui) (calls ++ [Call.closeCamera]))
      = run (init ui) (calls ++ [Call.closeCamera]) ∧
    (∀ s : State, s.stream = none → closeCamera s = s) := by
  have hrun : run (init ui) (calls ++ [Call.closeCamera]) = closeCamera (run (init ui) calls) := by
    simp [run, step]
  have hinv := run_inv (init ui) calls (init_inv ui)
  have hc := closeCamera_inv _ hinv
  rw [hrun]
  refine ⟨closeCamera_stream _, closeCamera_sink _ hinv, closeCamera_live _ hinv, ?_,
    closeCamera_of_closed _ (closeCamera_stream _), closeCamera_of_closed⟩
  intro t ht
  rcases hc.stopped t ht with h | h
  · rw [closeCamera_live _ hinv] at h
    simp at h
  · exact h

/-- C6 at a concrete input: open, open again, close. -/
theorem closeCamera_releases_every_track_witness :
    (run (init exampleUi)
      ([Call.openCamera (.ok 1) (.ok []), Call.openCamera (.ok 2) (.ok [])]
        ++ [Call.closeCamera])).liveTracks = [] ∧
    closeCamera (init exampleUi) = init exampleUi :=
  have h := closeCamera_releases_every_track exampleUi
    [Call.openCamera (.ok 1) (.ok []), Call.openCamera (.ok 2) (.ok [])]
  ⟨h.2.2.1, h.2.2.2.2.2 (init exampleUi) rfl⟩

/-- C7: in every reachable state with an active stream, the live tracks are the tracks of
that stream, and `openCamera()` first stops each of them, then clears the `srcObject` of
the preview, and only then calls `getUserMedia`; when that succeeds, the active stream is
the new one, the live tracks are exactly its tracks and none of the old tracks is among
them; when it fails, no stream is active and no track is live. -/
theorem openCamera_releases_previous_stream (ui : Ui) (calls : List Call)
    (gum : Except DOMException Nat) (devices : Except String (List MediaDeviceInfo))
    (old : MediaStream) (hopen : (run (init ui) calls).stream = some old) :
    (run (init ui) calls).liveTracks = old.tracks ∧
    (∃ rest, (openCamera (run (init ui) calls) gum devices).log
      = (run (init ui) calls).log ++ old.tracks.map Event.trackStop
        ++ [Event.setSrcObject none, Event.getUserMedia (run (init ui) calls).currentFacingMode]
        ++ rest) ∧
    (∀ n, gum = .ok n →
      (openCamera (run (init ui) calls) gum devices).stream
        = some { tracks := List.range' (run (init ui) calls).nextTrackId n } ∧
      (openCamera (run (init ui) calls) gum devices).liveTracks
        = List.range' (run (init ui) calls).nextTrackId n ∧
      ∀ t ∈ old.tracks, t ∉ (openCamera (run (init ui) calls) gum devices).liveTracks) ∧
    (∀ error, gum = .error error →
      (openCamera (run (init ui) calls) gum devices).stream = none ∧
      (openCamera (run (init ui) calls) gum devices).liveTracks = []) := by
  have hinv := run_inv (init ui) calls (init_inv ui)
  have hlive : (run (init ui) calls).liveTracks = old.tracks := by
    have := hinv.live
    rw [hopen] at this
    simpa using this
  have hclosed := closeCamera_live _ hinv
  have hlog := closeCamera_log _ old hopen
  refine ⟨hlive, ?_, ?_, ?_⟩
  · cases gum with
    | ok n =>
      obtain ⟨_, _, _, _, _, _, h7⟩ := openCamera_ok_fields (run (init ui) calls) n devices
      refine ⟨[Event.setSrcObject
        (some { tracks := List.range' (run (init ui) calls).nextTrackId n }),
        Event.enumerateDevices], ?_⟩
      rw [h7, hlog]
      simp
    | error e =>
      obtain ⟨_, _, _, _, _, _, h7⟩ := openCamera_error_fields (run (init ui) calls) e devices
      refine ⟨[Event.alert (openErrorMessage e)], ?_⟩
      rw [h7, hlog]
      simp
  · intro n hn
    subst hn
    obtain ⟨h1, _, h3, _, _, _, _⟩ := openCamera_ok_fields (run (init ui) calls) n devices
    rw [hclosed] at h3
    refine ⟨h1, by simpa using h3, ?_⟩
    intro t ht
    rw [h3]
    have hfresh := hinv.fresh t (by rw [hlive]; exact ht)
    simp only [List.nil_append, List.mem_range'_1]
    omega
  · intro e he
    subst he
    obtain ⟨h1, _, h3, _, _, _, _⟩ := openCamera_error_fields (run (init ui) calls) e devices
    exact ⟨h1, by rw [h3, hclosed]⟩

/-- C7 at a concrete input: a second successful open, of a stream of two tracks, on a
page whose first open acquired the track 0. -/
theorem openCamera_releases_previous_stream_witness :
    (run (init exampleUi) [Call.openCamera (.ok 1) (.ok [])]).stream = some { tracks := [0] } ∧
    (openCamera (run (init exampleUi) [Call.openCamera (.ok 1) (.ok [])])
      (.ok 2) (.ok [])).liveTracks
      = List.range' (run (init exampleUi) [Call.openCamera (.ok 1) (.ok [])]).nextTrackId 2 :=
  ⟨by decide,
   ((openCamera_releases_previous_stream exampleUi [Call.openCamera (.ok 1) (.ok [])]
      (.ok 2) (.ok []) { tracks := [0] } (by decide)).2.2.1 2 rfl).2.1⟩

/-- Successful captures append to the gallery, one photo per frame, in capture order. -/
theorem captureAll_photos (s : State) (frames : List Frame) (hopen : s.stream.isSome = true) :
    (captureAll s frames).capturedPhotos = s.capturedPhotos ++ frames.map photoOf ∧
    (captureAll s frames).stream = s.stream := by
  induction frames generalizing s with
  | nil => simp [captureAll]
  | cons f frames ih =>
    have h1 : (capturePhoto s f).capturedPhotos = s.capturedPhotos ++ [photoOf f] ∧
        (capturePhoto s f).stream = s.stream := by
      unfold capturePhoto
      cases hs : s.stream with
      | none => simp [hs] at hopen
      | some st => simp [(displayPhotos_fields _).1, (displayPhotos_fields _).2.2.2.2.2.1, photoOf]
    have h2 := ih (capturePhoto s f) (by rw [h1.2]; exact hopen)
    simp only [captureAll, List.foldl_cons] at h2 ⊢
    rw [h2.1, h2.2, h1.1, h1.2]
    simp

/-- C8, the code at the failing input: two successful captures at the same reading of
`Date.now()` leave two photos in the gallery, in capture order, that share their id; the
delete button of either one then removes both. -/
theorem capturePhoto_same_clock_reading_shares_id :
    exampleOpen.stream = some { tracks := [0] } ∧
    exampleOpen.capturedPhotos = [] ∧
    (captureAll exampleOpen [frameA, frameB]).capturedPhotos = [photoOf frameA, photoOf frameB] ∧
    (captureAll exampleOpen [frameA, frameB]).capturedPhotos.map Photo.id
      = [1700000000000, 1700000000000] ∧
    ¬ ((captureAll exampleOpen [frameA, frameB]).capturedPhotos.map Photo.id).Nodup ∧
    (deletePhoto (captureAll exampleOpen [frameA, frameB]) 1700000000000).capturedPhotos = [] := by
  decide

theorem filter_ne_of_not_mem (photos : List Photo) (photoId : Nat)
    (h : photoId ∉ photos.map Photo.id) :
    photos.filter (fun photo => photo.id != photoId) = photos := by
  rw [List.filter_eq_self]
  intro p hp
  have : p.id ≠ photoId := fun he => h (he ▸ List.mem_map_of_mem Photo.id hp)
  simpa using this

theorem filter_ne_of_nodup (photos : List Photo) (photoId : Nat)
    (hnodup : (photos.map Photo.id).Nodup) (h : photoId ∈ photos.map Photo.id) :
    ∃ before photo after, photos = before ++ photo :: after ∧ photo.id = photoId ∧
      photos.filter (fun photo => photo.id != photoId) = before ++ after := by
  induction photos with
  | nil => simp at h
  | cons p photos ih =>
    rw [List.map_cons, List.nodup_cons] at hnodup
    by_cases hp : p.id = photoId
    · refine ⟨[], p, photos, rfl, hp, ?_⟩
      have hrest : photoId ∉ photos.map Photo.id := hp ▸ hnodup.1
      simp [List.filter_cons, hp, filter_ne_of_not_mem photos photoId hrest]
    · have hmem : photoId ∈ photos.map Photo.id := by
        rw [List.map_cons, List.mem_cons] at h
        rcases h with h | h
        · exact absurd h.symm hp
        · exact h
      obtain ⟨before, photo, after, h1, h2, h3⟩ := ih hnodup.2 hmem
      refine ⟨p :: before, photo, after, by rw [h1]; rfl, h2, ?_⟩
      have hb : (p.id != photoId) = true := by simpa using hp
      simp [List.filter_cons, hb, h3]

/-- C9: on a gallery whose ids are pairwise distinct, `deletePhoto(id)` with an id that is
present removes exactly the one entry with that id - the gallery was `before`, the entry,
`after`, and becomes `before` followed by `after`, one entry shorter, the survivors in
their order - and with an id that is absent leaves the gallery as it was. -/
theorem deletePhoto_removes_exactly_one (s : State) (photoId : Nat)
    (hnodup : (s.capturedPhotos.map Photo.id).Nodup) :
    (photoId ∈ s.capturedPhotos.map Photo.id →
      ∃ before photo after, s.capturedPhotos = before ++ photo :: after ∧
        photo.id = photoId ∧
        (deletePhoto s photoId).capturedPhotos = before ++ after ∧
        (deletePhoto s photoId).capturedPhotos.length + 1 = s.capturedPhotos.length) ∧
    (photoId ∉ s.capturedPhotos.map Photo.id →
      (deletePhoto s photoId).capturedPhotos = s.capturedPhotos) := by
  have hd : (deletePhoto s photoId).capturedPhotos
      = s.capturedPhotos.filter (fun photo => photo.id != photoId) := by
    unfold deletePhoto
    rw [(displayPhotos_fields _).2.2.2.2.2.1]
  constructor
  · intro h
    obtain ⟨before, photo, after, h1, h2, h3⟩ := filter_ne_of_nodup _ photoId hnodup h
    refine ⟨before, photo, after, h1, h2, by rw [hd, h3], ?_⟩
    rw [hd, h3, h1]
    simp
    omega
  · intro h
    rw [hd, filter_ne_of_not_mem _ photoId h]

/-- C9 at a concrete input: the gallery with the ids 10, 20, 30 and the id 20. -/
theorem deletePhoto_removes_exactly_one_witness :
    (exampleGallery.capturedPhotos.map Photo.id).Nodup ∧
    (deletePhoto exampleGallery 20).capturedPhotos.length + 1
      = exampleGallery.capturedPhotos.length ∧
    (deletePhoto exampleGallery 40).capturedPhotos = exampleGallery.capturedPhotos :=
  have h := deletePhoto_removes_exactly_one exampleGallery
  ⟨by decide,
   by
    obtain ⟨_, _, _, _, _, _, hlen⟩ := (h 20 (by decide)).1 (by decide)
    exact hlen,
   (h 40 (by decide)).2 (by decide)⟩

/-- C10: in every reachable state the facing mode is `environment` or `user`; one
`switchCamera()` sets it to the other of the two values, and two consecutive calls set it
back to the value it had, whatever `getUserMedia` and `enumerateDevices` answer. -/
theorem switchCamera_toggles_facing_mode (ui : Ui) (calls : List Call)
    (gum1 gum2 : Except DOMException Nat)
    (devices1 devices2 : Except String (List MediaDeviceInfo)) :
    ((run (init ui) calls).currentFacingMode = "environment" ∧
        (switchCamera (run (init ui) calls) gum1 devices1).currentFacingMode = "user" ∨
      (run (init ui) calls).currentFacingMode = "user" ∧
        (switchCamera (run (init ui) calls) gum1 devices1).currentFacingMode = "environment") ∧
    (switchCamera (switchCamera (run (init ui) calls) gum1 devices1) gum2
      devices2).currentFacingMode = (run (init ui) calls).currentFacingMode := by
  have hinv := run_inv (init ui) calls (init_inv ui)
  simp only [switchCamera_mode]
  rcases hinv.mode with h | h
  · rw [h]
    exact ⟨Or.inl ⟨rfl, by decide⟩, by decide⟩
  · rw [h]
    exact ⟨Or.inr ⟨rfl, by decide⟩, by decide⟩

end App
